import Mathlib

/-!
Verification of the top-level declaration classifier and extraction planner
of the explode-document extension.

The embedding models the TypeScript AST fragments the code inspects: nodes
carry an identity (`nodeId`), a parent reference (`parentId`, modelling the
`node.parent === sourceFile` reference comparison), modifiers, a kind tag
with the payloads the code reads (name identifier, declaration list), a
source range, and children.  The two source implementations of
`isTopLevelDeclaration` are embedded separately (`V1.isTopLevelDeclaration`
for the first one, `isTopLevelDeclaration` for the one the planner uses),
and the planner `visit` walk, the descending sort, and the surrounding
`explodeDocument` control flow are embedded from the second implementation.
-/

/- Values of the TypeScript `ts.NodeFlags` members the code masks against:
`Let = 1`, `Const = 2`, `BlockScoped = Let | Const = 3`. -/
namespace NodeFlags

def Let : Nat := 1

def Const : Nat := 2

def BlockScoped : Nat := 3

end NodeFlags

/-- An identifier node: its source text (`getText`) and its range
(`getStart(sf, true)` to `getEnd()`). -/
structure Identifier where
  text : String
  startPos : Nat
  endPos : Nat
deriving Repr, DecidableEq

/-- The binding target of a variable declarator: a simple identifier
(`ts.isIdentifier(first.name)`) or a destructuring pattern. -/
inductive BindingName where
  | ident (i : Identifier)
  | pattern
deriving Repr, DecidableEq

/-- One variable declarator, with its binding target and its range. -/
structure Declarator where
  name : BindingName
  startPos : Nat
  endPos : Nat
deriving Repr, DecidableEq

/-- The declaration list of a variable statement: `flags` bitmask and the
ordered declarators. -/
structure DeclarationList where
  flags : Nat
  declarations : List Declarator
deriving Repr, DecidableEq

/-- Node kind tag with the payloads the code reads through the
`ts.isClassDeclaration` family of predicates and the `named.name` /
`node.declarationList` accesses. -/
inductive NodeKind where
  | classDeclaration (name : Option Identifier)
  | interfaceDeclaration (name : Option Identifier)
  | enumDeclaration (name : Option Identifier)
  | functionDeclaration (name : Option Identifier)
  | typeAliasDeclaration (name : Option Identifier)
  | variableStatement (declarationList : DeclarationList)
  | sourceFileKind
  | otherKind (code : Nat)
deriving Repr, DecidableEq

mutual
/-- A syntax tree node: identity, parent reference, modifiers (ignored by
the classifier), kind, range `[startPos, endPos)`, and children. -/
inductive Node where
  | mk (nodeId : Nat) (parentId : Option Nat) (modifiers : List Nat)
       (kind : NodeKind) (startPos : Nat) (endPos : Nat) (children : NodeForest)
deriving Repr, DecidableEq
/-- A list of sibling nodes (the `ts.forEachChild` iteration order). -/
inductive NodeForest where
  | nil
  | cons (head : Node) (tail : NodeForest)
deriving Repr, DecidableEq
end

def Node.nodeId : Node → Nat
  | .mk i _ _ _ _ _ _ => i

def Node.parentId : Node → Option Nat
  | .mk _ p _ _ _ _ _ => p

def Node.modifiers : Node → List Nat
  | .mk _ _ m _ _ _ _ => m

def Node.kind : Node → NodeKind
  | .mk _ _ _ k _ _ _ => k

def Node.startPos : Node → Nat
  | .mk _ _ _ _ s _ _ => s

def Node.endPos : Node → Nat
  | .mk _ _ _ _ _ e _ => e

def Node.childForest : Node → NodeForest
  | .mk _ _ _ _ _ _ c => c

def NodeForest.toList : NodeForest → List Node
  | .nil => []
  | .cons h t => h :: t.toList

/-- The direct children of a node as a plain list. -/
def Node.childList (n : Node) : List Node := n.childForest.toList

/-- Model of `ts.isClassDeclaration`. -/
def isClassDeclaration (n : Node) : Bool :=
  match n.kind with
  | .classDeclaration _ => true
  | _ => false

/-- Model of `ts.isInterfaceDeclaration`. -/
def isInterfaceDeclaration (n : Node) : Bool :=
  match n.kind with
  | .interfaceDeclaration _ => true
  | _ => false

/-- Model of `ts.isEnumDeclaration`. -/
def isEnumDeclaration (n : Node) : Bool :=
  match n.kind with
  | .enumDeclaration _ => true
  | _ => false

/-- Model of `ts.isFunctionDeclaration`. -/
def isFunctionDeclaration (n : Node) : Bool :=
  match n.kind with
  | .functionDeclaration _ => true
  | _ => false

/-- Model of `ts.isTypeAliasDeclaration`. -/
def isTypeAliasDeclaration (n : Node) : Bool :=
  match n.kind with
  | .typeAliasDeclaration _ => true
  | _ => false

/-- Model of `ts.isVariableStatement`. -/
def isVariableStatement (n : Node) : Bool :=
  match n.kind with
  | .variableStatement _ => true
  | _ => false

/-- The `name` member read after the cast to the union of the five named
declaration kinds (`ClassDeclaration | ... | TypeAliasDeclaration`). -/
def declName (n : Node) : Option Identifier :=
  match n.kind with
  | .classDeclaration name => name
  | .interfaceDeclaration name => name
  | .enumDeclaration name => name
  | .functionDeclaration name => name
  | .typeAliasDeclaration name => name
  | _ => none

/-- The `declarationList` member of a variable statement. -/
def declListOf (n : Node) : Option DeclarationList :=
  match n.kind with
  | .variableStatement dl => some dl
  | _ => none

/-- Model of the `ts.SyntaxKind[n.kind]` string used as a kind tag. -/
def kindNameOf : NodeKind → String
  | .classDeclaration _ => "ClassDeclaration"
  | .interfaceDeclaration _ => "InterfaceDeclaration"
  | .enumDeclaration _ => "EnumDeclaration"
  | .functionDeclaration _ => "FunctionDeclaration"
  | .typeAliasDeclaration _ => "TypeAliasDeclaration"
  | .variableStatement _ => "VariableStatement"
  | .sourceFileKind => "SourceFile"
  | .otherKind _ => "Other"

/-- The second (planner) implementation of `isTopLevelDeclaration`
(concatenated source lines 306 to 321): direct parent test first, then the
five declaration kinds, then the variable statement rule with the flag
checks in the order Const, Let, BlockScoped. -/
def isTopLevelDeclaration (node : Node) (sourceFile : Node) : Bool :=
  if node.parentId != some sourceFile.nodeId then false
  else if isClassDeclaration node || isInterfaceDeclaration node ||
      isEnumDeclaration node || isFunctionDeclaration node ||
      isTypeAliasDeclaration node then true
  else
    match node.kind with
    | .variableStatement dl =>
        let flags := dl.flags
        let block := (flags &&& NodeFlags.Const != 0) ||
          (flags &&& NodeFlags.Let != 0) || (flags &&& NodeFlags.BlockScoped != 0)
        block && decide (dl.declarations.length > 0)
    | _ => false

namespace V1

/-- The first implementation of `isTopLevelDeclaration` (concatenated source
lines 74 to 102): the parent test goes through a lambda `isTop` that ignores
its argument and closes over `node`, and the flag checks are in the order
BlockScoped, Const, Let. -/
def isTopLevelDeclaration (node : Node) (sourceFile : Node) : Bool :=
  let isTop : Node → Bool := fun _ => node.parentId == some sourceFile.nodeId
  if !(isTop node) then false
  else if isClassDeclaration node || isInterfaceDeclaration node ||
      isEnumDeclaration node || isFunctionDeclaration node ||
      isTypeAliasDeclaration node then true
  else
    match node.kind with
    | .variableStatement declList =>
        let isBlockScoped := (declList.flags &&& NodeFlags.BlockScoped != 0) ||
          (declList.flags &&& NodeFlags.Const != 0) ||
          (declList.flags &&& NodeFlags.Let != 0)
        if isBlockScoped && decide (declList.declarations.length > 0) then true
        else false
    | _ => false

end V1

/-- The record pushed by the planner for each qualifying declaration:
`{ start, end, label, kind }` (the `end` member is named `endPos` here
because `end` is reserved). -/
structure Target where
  start : Nat
  endPos : Nat
  label : String
  kind : String
deriving Repr, DecidableEq

mutual
/-- The planner walk of the second implementation (concatenated source lines
430 to 451): a non-qualifying node recurses into its children; a qualifying
non-variable node pushes the name identifier span (or the whole node span
with label `<anonymous>` when the name is absent); a qualifying variable
statement pushes the span of the first declarator (identifier span and text
for a simple identifier, whole declarator span and label `<var>` for a
pattern). -/
def visit (sf : Node) : Node → List Target
  | n@(.mk _ _ _ _ _ _ cs) =>
    if !(isTopLevelDeclaration n sf) then visitForest sf cs
    else if !(isVariableStatement n) then
      match declName n with
      | some i =>
          [{ start := i.startPos, endPos := i.endPos, label := i.text,
             kind := kindNameOf n.kind }]
      | none =>
          [{ start := n.startPos, endPos := n.endPos, label := "<anonymous>",
             kind := kindNameOf n.kind }]
    else
      match declListOf n with
      | some dl =>
          match dl.declarations with
          | [] => []
          | first :: _ =>
              match first.name with
              | .ident i =>
                  [{ start := i.startPos, endPos := i.endPos, label := i.text,
                     kind := "Variable" }]
              | .pattern =>
                  [{ start := first.startPos, endPos := first.endPos,
                     label := "<var>", kind := "Variable" }]
      | none => []
/-- The `ts.forEachChild` iteration applying `visit` to each child in order. -/
def visitForest (sf : Node) : NodeForest → List Target
  | .nil => []
  | .cons h t => visit sf h ++ visitForest sf t
end

/-- The unsorted target list: `ts.forEachChild(sf, visit)` over the children
of the source file (concatenated source line 453). -/
def planTargets (sf : Node) : List Target :=
  visitForest sf sf.childForest

/-- The comparator `(a, b) => b.start - a.start` orders by descending start
offset; as a binary relation it is `b.start <= a.start`. -/
def descByStart (a b : Target) : Bool := b.start ≤ a.start

/-- The sorted extraction plan: `targets.sort((a, b) => b.start - a.start)`
(concatenated source line 463). -/
def explodePlan (sf : Node) : List Target :=
  (planTargets sf).mergeSort descByStart

/-- The active text document: file name, language identifier, and full text. -/
structure TextDocument where
  fileName : String
  languageId : String
  text : String

/-- The accepted language identifiers (concatenated source lines 323 to 330). -/
def acceptedLanguages : List String :=
  ["typescript", "typescriptreact", "javascript", "javascriptreact"]

/-- Model of `isTSLike` (concatenated source lines 323 to 330). -/
def isTSLike (doc : TextDocument) : Bool :=
  doc.languageId == "typescript" || doc.languageId == "typescriptreact" ||
    doc.languageId == "javascript" || doc.languageId == "javascriptreact"

/-- A code action returned by the provider query collaborator. -/
structure CodeAction where
  title : String
  kindValue : Option String

/-- The external collaborators `explodeDocument` talks to.  Fallible calls
return `Except String`, the error carrying the thrown message. -/
structure Env where
  activeTextEditor : Option TextDocument
  parse : String → String → Node
  query : Target → Except String (List CodeAction)
  execCodeAction : CodeAction → Except String Unit
  fallbackCommand : String → Except String Unit

/-- Model of `executeEditorCodeAction` (concatenated source lines 385 to
394): logs the invocation, runs the generic code action command, and
swallows a failure into a `false` result with a log line. -/
def executeEditorCodeAction (env : Env) (kind : String) : Bool × List String :=
  let invoked := "Invoke editor.action.codeAction with kind " ++ kind ++
    " and apply first"
  match env.fallbackCommand kind with
  | .ok _ => (true, [invoked])
  | .error e => (false, [invoked, "editor.action.codeAction failed: " ++ e])

/-- One iteration of the per-target loop (concatenated source lines 487 to
515), after the progress report: the provider path runs inside a try block
whose catch logs `Provider execute failed for <label>: <message>` and leaves
`usedProvider` false, after which the fallback path runs.  Returns whether
the provider path applied an action, plus the log lines. -/
def processTarget (env : Env) (t : Target) : Bool × List String :=
  let caught := fun (e : String) (pre : List String) =>
    pre ++ ["Provider execute failed for " ++ t.label ++ ": " ++ e]
  let afterTry :=
    match env.query t with
    | .error e => (false, caught e [])
    | .ok actions =>
      let countLine := "Provider path candidate count for " ++ t.label ++ ": " ++
        toString actions.length
      match actions with
      | [] => (false, [countLine])
      | action :: _ =>
        let execLine := "Executing CodeAction via vscode.executeCodeAction title=" ++
          action.title
        match env.execCodeAction action with
        | .ok _ => (true, [countLine, execLine])
        | .error e => (false, caught e [countLine, execLine])
  match afterTry with
  | (true, logs) => (true, logs)
  | (false, logs) =>
    let fb := executeEditorCodeAction env "refactor.move.newFile"
    let fbLine :=
      if fb.1 then "Fallback applied for " ++ t.label
      else "Fallback codeAction executor did not apply for " ++ t.label
    (false, logs ++
      ["No provider-executed action for " ++ t.label ++
        ". Fallback to editor.action.codeAction kind=refactor.move.newFile"] ++
      fb.2 ++ [fbLine])

/-- The `withProgress` loop body over the sorted targets: every target gets a
`Processing` progress report (recorded as its label in the first component)
and is handed to `processTarget`; log lines accumulate in order. -/
def runLoop (env : Env) : List Target → List String × List String
  | [] => ([], [])
  | t :: rest =>
    let step := processTarget env t
    let tail := runLoop env rest
    (t.label :: tail.1, ("Processing label=" ++ t.label) :: step.2 ++ tail.2)

/-- Observable outcome of one `explodeDocument` run: user-visible error and
information notifications, the computed target list (`none` when the run
refused before planning), the labels of the targets attempted by the loop,
and the log lines. -/
structure RunResult where
  errors : List String
  infos : List String
  plan : Option (List Target)
  attempted : List String
  logs : List String

/-- Model of the second `explodeDocument` (concatenated source lines 396 to
522).  Collaborator failures are all caught where the source catches them,
so the function is proved to always return `.ok`; the `Except` result type
records that an uncaught collaborator failure would have crossed the
boundary as `.error`. -/
def explodeDocument (env : Env) : Except String RunResult :=
  match env.activeTextEditor with
  | none =>
      .ok { errors := ["Explode Document: No active editor"], infos := [],
            plan := none, attempted := [],
            logs := ["Explode Document: No active editor"] }
  | some doc =>
    if !(isTSLike doc) then
      .ok { errors := ["Explode Document: TS or JS files only"], infos := [],
            plan := none, attempted := [],
            logs := ["Explode Document: TS or JS files only"] }
    else
      let sf := env.parse doc.fileName doc.text
      let targets := planTargets sf
      if targets.length == 0 then
        .ok { errors := [],
              infos := ["Explode Document: No top-level declarations found"],
              plan := some targets, attempted := [],
              logs := ["Explode Document: No top-level declarations found"] }
      else
        let sorted := targets.mergeSort descByStart
        let looped := runLoop env sorted
        .ok { errors := [],
              infos := ["Explode Document finished. See the Output panel for logs"],
              plan := some sorted, attempted := looped.1, logs := looped.2 }

/-- The single target a qualifying node contributes, read off from the
branches of `visit` (used to state what the walk emits). -/
def targetOf (n : Node) : Target :=
  if !(isVariableStatement n) then
    match declName n with
    | some i =>
        { start := i.startPos, endPos := i.endPos, label := i.text,
          kind := kindNameOf n.kind }
    | none =>
        { start := n.startPos, endPos := n.endPos, label := "<anonymous>",
          kind := kindNameOf n.kind }
  else
    match declListOf n with
    | some dl =>
        match dl.declarations with
        | [] => { start := n.startPos, endPos := n.endPos, label := "", kind := "" }
        | first :: _ =>
            match first.name with
            | .ident i =>
                { start := i.startPos, endPos := i.endPos, label := i.text,
                  kind := "Variable" }
            | .pattern =>
                { start := first.startPos, endPos := first.endPos,
                  label := "<var>", kind := "Variable" }
    | none => { start := n.startPos, endPos := n.endPos, label := "", kind := "" }

/-- Whether a kind is one of the five declaration kinds accepted
unconditionally at top level. -/
def isDeclarationKind : NodeKind → Bool
  | .classDeclaration _ => true
  | .interfaceDeclaration _ => true
  | .enumDeclaration _ => true
  | .functionDeclaration _ => true
  | .typeAliasDeclaration _ => true
  | _ => false

mutual
/-- All nodes of the subtree rooted at a node, the root included. -/
def subtreeNodes : Node → List Node
  | n@(.mk _ _ _ _ _ _ cs) => n :: forestSubtreeNodes cs
/-- All nodes of the subtrees rooted in a forest. -/
def forestSubtreeNodes : NodeForest → List Node
  | .nil => []
  | .cons h t => subtreeNodes h ++ forestSubtreeNodes t
end

/-- Parser well-formedness: every parent reference agrees with the tree
structure (each child of each node of the tree points back at that node). -/
def parentLinked (sf : Node) : Bool :=
  (subtreeNodes sf).all fun m =>
    m.childList.all fun c => c.parentId == some m.nodeId

/-- Parser well-formedness: the identity of the file root is not reused by
any node below it (references to distinct nodes are distinct). -/
def rootIdFresh (sf : Node) : Bool :=
  (forestSubtreeNodes sf.childForest).all fun m => m.nodeId != sf.nodeId

/-- Parser well-formedness of the spans a target is cut from: the name
identifier (or first declarator and its identifier) lies inside the node
range, and every involved range is properly ordered. -/
def spanWF (n : Node) : Bool :=
  if !(isVariableStatement n) then
    match declName n with
    | some i =>
        decide (n.startPos ≤ i.startPos) && decide (i.endPos ≤ n.endPos) &&
          decide (i.startPos ≤ i.endPos)
    | none => decide (n.startPos ≤ n.endPos)
  else
    match declListOf n with
    | some dl =>
        match dl.declarations with
        | [] => true
        | d :: _ =>
            decide (n.startPos ≤ d.startPos) && decide (d.endPos ≤ n.endPos) &&
              decide (d.startPos ≤ d.endPos) &&
              (match d.name with
               | .ident i =>
                   decide (d.startPos ≤ i.startPos) &&
                     decide (i.endPos ≤ d.endPos) &&
                     decide (i.startPos ≤ i.endPos)
               | .pattern => true)
    | none => true

/-- Two nodes occupy disjoint half-open ranges. -/
def nodesDisjoint (a b : Node) : Prop :=
  a.endPos ≤ b.startPos ∨ b.endPos ≤ a.startPos

/-- Two targets occupy disjoint half-open ranges. -/
def targetsDisjoint (a b : Target) : Prop :=
  a.endPos ≤ b.start ∨ b.endPos ≤ a.start

/-- The number of direct children of the file root that the classifier
accepts. -/
def qualifyingCount (sf : Node) : Nat :=
  (sf.childList.filter fun c => isTopLevelDeclaration c sf).length

/-- A node sits strictly inside a direct child of the file root (inside a
function body, class body, block, or deeper). -/
def nestedBelowTop (sf n : Node) : Prop :=
  ∃ c, c ∈ sf.childList ∧ n ∈ forestSubtreeNodes c.childForest

/- Sample source file mirroring the e2e test workspace: five exported
top-level declarations (class Foo, interface Baz, enum K, function bar,
const Qux) followed by one non-declaration statement with a nested child.
Offsets are consistent half-open ranges over a synthetic layout. -/

def fooProp : Node := .mk 11 (some 1) [] (.otherKind 171) 19 24 .nil

def fooClass : Node :=
  .mk 1 (some 0) [95] (.classDeclaration (some ⟨"Foo", 13, 16⟩)) 0 26
    (.cons fooProp .nil)

def bazIface : Node :=
  .mk 2 (some 0) [95] (.interfaceDeclaration (some ⟨"Baz", 44, 47⟩)) 27 61 .nil

def kEnum : Node :=
  .mk 3 (some 0) [95] (.enumDeclaration (some ⟨"K", 74, 75⟩)) 62 92 .nil

def barFun : Node :=
  .mk 4 (some 0) [95] (.functionDeclaration (some ⟨"bar", 109, 112⟩)) 93 128 .nil

def quxDecl : Declarator := { name := .ident ⟨"Qux", 142, 145⟩, startPos := 142, endPos := 148 }

def quxStmt : Node :=
  .mk 5 (some 0) [95]
    (.variableStatement { flags := NodeFlags.Const, declarations := [quxDecl] })
    129 149 .nil

def exprStmt : Node :=
  .mk 6 (some 0) [] (.otherKind 244) 150 160
    (.cons (.mk 12 (some 6) [] (.otherKind 213) 150 159 .nil) .nil)

def sampleSF : Node :=
  .mk 0 none [] .sourceFileKind 0 160
    (.cons fooClass (.cons bazIface (.cons kEnum
      (.cons barFun (.cons quxStmt (.cons exprStmt .nil))))))

/-- A source file with no qualifying declarations at all. -/
def emptySF : Node := .mk 0 none [] .sourceFileKind 0 0 .nil

/-- A markdown active document. -/
def markdownDoc : TextDocument :=
  { fileName := "README.md", languageId := "markdown", text := "# readme" }

/-- A TypeScript active document with no qualifying declarations. -/
def emptyTsDoc : TextDocument :=
  { fileName := "empty.ts", languageId := "typescript", text := "1 + 1;" }

/-- A TypeScript active document mirroring the e2e workspace file. -/
def indexTsDoc : TextDocument :=
  { fileName := "index.ts", languageId := "typescript",
    text := "export class Foo \x7b n = 1 \x7d" }

/-- A benign collaborator environment with a markdown active document. -/
def markdownEnv : Env :=
  { activeTextEditor := some markdownDoc,
    parse := fun _ _ => sampleSF,
    query := fun _ => .ok [],
    execCodeAction := fun _ => .ok (),
    fallbackCommand := fun _ => .ok () }

/-- A benign collaborator environment whose active TypeScript document
parses to a file with no qualifying declarations. -/
def emptyTsEnv : Env :=
  { activeTextEditor := some emptyTsDoc,
    parse := fun _ _ => emptySF,
    query := fun _ => .ok [],
    execCodeAction := fun _ => .ok (),
    fallbackCommand := fun _ => .ok () }

/-- A collaborator environment whose provider query rejects every target. -/
def failingEnv : Env :=
  { activeTextEditor := some indexTsDoc,
    parse := fun _ _ => sampleSF,
    query := fun _ => .error "boom",
    execCodeAction := fun _ => .ok (),
    fallbackCommand := fun _ => .error "no action" }

/-- A concrete one-element plan used to exercise the per-target loop. -/
def fooTarget : Target :=
  { start := 13, endPos := 16, label := "Foo", kind := "ClassDeclaration" }

instance (a b : Node) : Decidable (nodesDisjoint a b) :=
  inferInstanceAs (Decidable (_ ∨ _))

instance (a b : Target) : Decidable (targetsDisjoint a b) :=
  inferInstanceAs (Decidable (_ ∨ _))

theorem subtreeNodes_def (n : Node) :
    subtreeNodes n = n :: forestSubtreeNodes n.childForest := by
  obtain ⟨i, p, mo, k, s, e, cs⟩ := n
  rfl

theorem self_mem_subtreeNodes (n : Node) : n ∈ subtreeNodes n := by
  rw [subtreeNodes_def]
  exact List.mem_cons_self _ _

theorem subtree_subset_forest :
    ∀ (f : NodeForest) (c : Node), c ∈ f.toList →
      ∀ x ∈ subtreeNodes c, x ∈ forestSubtreeNodes f
  | .nil, c, h => by simp [NodeForest.toList] at h
  | .cons hd tl, c, h => by
      intro x hx
      simp only [NodeForest.toList, List.mem_cons] at h
      simp only [forestSubtreeNodes, List.mem_append]
      rcases h with rfl | h
      · exact Or.inl hx
      · exact Or.inr (subtree_subset_forest tl c h x hx)

mutual
theorem mem_subtree_cases : ∀ (t m : Node), m ∈ subtreeNodes t →
    m = t ∨ ∃ p, p ∈ subtreeNodes t ∧ m ∈ p.childList
  | .mk i pid mo k s e cs, m, h => by
      rw [subtreeNodes_def] at h
      rcases List.mem_cons.mp h with rfl | h2
      · exact Or.inl rfl
      · rcases mem_forest_cases cs m h2 with hd | ⟨p, hp, hpc⟩
        · exact Or.inr ⟨.mk i pid mo k s e cs,
            self_mem_subtreeNodes _, hd⟩
        · refine Or.inr ⟨p, ?_, hpc⟩
          rw [subtreeNodes_def]
          exact List.mem_cons_of_mem _ hp
theorem mem_forest_cases : ∀ (f : NodeForest) (m : Node), m ∈ forestSubtreeNodes f →
    m ∈ f.toList ∨ ∃ p, p ∈ forestSubtreeNodes f ∧ m ∈ p.childList
  | .cons hd tl, m, h => by
      simp only [forestSubtreeNodes, List.mem_append] at h
      rcases h with h1 | h2
      · rcases mem_subtree_cases hd m h1 with rfl | ⟨p, hp, hpc⟩
        · exact Or.inl (by simp [NodeForest.toList])
        · refine Or.inr ⟨p, ?_, hpc⟩
          simp only [forestSubtreeNodes, List.mem_append]
          exact Or.inl hp
      · rcases mem_forest_cases tl m h2 with hd2 | ⟨p, hp, hpc⟩
        · exact Or.inl (by simp [NodeForest.toList, hd2])
        · refine Or.inr ⟨p, ?_, hpc⟩
          simp only [forestSubtreeNodes, List.mem_append]
          exact Or.inr hp
end

theorem parentLinked_spec {sf : Node} (h : parentLinked sf = true) :
    ∀ m ∈ subtreeNodes sf, ∀ c ∈ m.childList, c.parentId = some m.nodeId := by
  simp only [parentLinked, List.all_eq_true, beq_iff_eq] at h
  exact h

theorem rootIdFresh_spec {sf : Node} (h : rootIdFresh sf = true) :
    ∀ m ∈ forestSubtreeNodes sf.childForest, m.nodeId ≠ sf.nodeId := by
  simp only [rootIdFresh, List.all_eq_true, bne_iff_ne, ne_eq] at h
  exact h

theorem isTopLevel_false_of_parent_ne {n sf : Node}
    (h : n.parentId ≠ some sf.nodeId) : isTopLevelDeclaration n sf = false := by
  unfold isTopLevelDeclaration
  rw [if_pos]
  simpa [bne_iff_ne] using h

theorem isTopLevel_parent {n sf : Node}
    (h : isTopLevelDeclaration n sf = true) : n.parentId = some sf.nodeId := by
  by_contra hne
  rw [isTopLevel_false_of_parent_ne hne] at h
  cases h

theorem nested_not_top {sf : Node} (hlink : parentLinked sf = true)
    (hfresh : rootIdFresh sf = true) {m : Node} (hm : nestedBelowTop sf m) :
    isTopLevelDeclaration m sf = false := by
  obtain ⟨c, hc, hmem⟩ := hm
  have hcf : c ∈ forestSubtreeNodes sf.childForest :=
    subtree_subset_forest _ c hc c (self_mem_subtreeNodes c)
  rcases mem_forest_cases c.childForest m hmem with hdirect | ⟨p, hp, hpc⟩
  · have hcs : c ∈ subtreeNodes sf := by
      rw [subtreeNodes_def]
      exact List.mem_cons_of_mem _ hcf
    have hpar : m.parentId = some c.nodeId :=
      parentLinked_spec hlink c hcs m hdirect
    have hne : c.nodeId ≠ sf.nodeId := rootIdFresh_spec hfresh c hcf
    apply isTopLevel_false_of_parent_ne
    rw [hpar]
    intro heq
    exact hne (Option.some.inj heq)
  · have hps : p ∈ subtreeNodes c := by
      rw [subtreeNodes_def]
      exact List.mem_cons_of_mem _ hp
    have hpf : p ∈ forestSubtreeNodes sf.childForest :=
      subtree_subset_forest _ c hc p hps
    have hpsf : p ∈ subtreeNodes sf := by
      rw [subtreeNodes_def]
      exact List.mem_cons_of_mem _ hpf
    have hpar : m.parentId = some p.nodeId :=
      parentLinked_spec hlink p hpsf m hpc
    have hne : p.nodeId ≠ sf.nodeId := rootIdFresh_spec hfresh p hpf
    apply isTopLevel_false_of_parent_ne
    rw [hpar]
    intro heq
    exact hne (Option.some.inj heq)

mutual
theorem visit_eq_nil : ∀ (sf n : Node),
    (∀ m ∈ subtreeNodes n, isTopLevelDeclaration m sf = false) → visit sf n = []
  | sf, .mk i p mo k s e cs, h => by
      have hn := h _ (self_mem_subtreeNodes (.mk i p mo k s e cs))
      rw [visit, if_pos (by rw [hn]; rfl)]
      refine visitForest_eq_nil sf cs (fun m hm => h m ?_)
      rw [subtreeNodes_def]
      exact List.mem_cons_of_mem _ hm
theorem visitForest_eq_nil : ∀ (sf : Node) (f : NodeForest),
    (∀ m ∈ forestSubtreeNodes f, isTopLevelDeclaration m sf = false) →
      visitForest sf f = []
  | _, .nil, _ => rfl
  | sf, .cons hd tl, h => by
      rw [visitForest]
      rw [visit_eq_nil sf hd (fun m hm => h m (by
        simp only [forestSubtreeNodes, List.mem_append]
        exact Or.inl hm))]
      rw [visitForest_eq_nil sf tl (fun m hm => h m (by
        simp only [forestSubtreeNodes, List.mem_append]
        exact Or.inr hm))]
      rfl
end

theorem qualifying_variable_nonempty {sf : Node} {i : Nat} {p : Option Nat}
    {mo : List Nat} {dl : DeclarationList} {s e : Nat} {cs : NodeForest}
    (hq : isTopLevelDeclaration (.mk i p mo (.variableStatement dl) s e cs) sf = true) :
    dl.declarations ≠ [] := by
  intro hnil
  unfold isTopLevelDeclaration at hq
  split at hq
  · cases hq
  · simp [isClassDeclaration, isInterfaceDeclaration, isEnumDeclaration,
      isFunctionDeclaration, isTypeAliasDeclaration, Node.kind, hnil] at hq

theorem visit_of_qualifying {sf : Node} : ∀ {n : Node},
    isTopLevelDeclaration n sf = true → visit sf n = [targetOf n]
  | .mk i p mo k s e cs, hq => by
      rw [visit, if_neg (by rw [hq]; simp)]
      cases k with
      | classDeclaration name =>
          cases name <;>
            simp [targetOf, isVariableStatement, declName, Node.kind,
              kindNameOf, Node.startPos, Node.endPos]
      | interfaceDeclaration name =>
          cases name <;>
            simp [targetOf, isVariableStatement, declName, Node.kind,
              kindNameOf, Node.startPos, Node.endPos]
      | enumDeclaration name =>
          cases name <;>
            simp [targetOf, isVariableStatement, declName, Node.kind,
              kindNameOf, Node.startPos, Node.endPos]
      | functionDeclaration name =>
          cases name <;>
            simp [targetOf, isVariableStatement, declName, Node.kind,
              kindNameOf, Node.startPos, Node.endPos]
      | typeAliasDeclaration name =>
          cases name <;>
            simp [targetOf, isVariableStatement, declName, Node.kind,
              kindNameOf, Node.startPos, Node.endPos]
      | variableStatement dl =>
          have hne : dl.declarations ≠ [] := qualifying_variable_nonempty hq
          obtain ⟨first, rest, hfr⟩ :
              ∃ first rest, dl.declarations = first :: rest := by
            cases hd : dl.declarations with
            | nil => exact absurd hd hne
            | cons a b => exact ⟨a, b, rfl⟩
          cases hn : first.name <;>
            simp [targetOf, isVariableStatement, declListOf, Node.kind, hfr, hn]
      | sourceFileKind =>
          exfalso
          unfold isTopLevelDeclaration at hq
          simp [isClassDeclaration, isInterfaceDeclaration, isEnumDeclaration,
            isFunctionDeclaration, isTypeAliasDeclaration, Node.kind] at hq
      | otherKind c =>
          exfalso
          unfold isTopLevelDeclaration at hq
          simp [isClassDeclaration, isInterfaceDeclaration, isEnumDeclaration,
            isFunctionDeclaration, isTypeAliasDeclaration, Node.kind] at hq

theorem targetOf_span {sf : Node} : ∀ {n : Node},
    isTopLevelDeclaration n sf = true → spanWF n = true →
    n.startPos ≤ (targetOf n).start ∧ (targetOf n).endPos ≤ n.endPos ∧
      (targetOf n).start ≤ (targetOf n).endPos
  | .mk i p mo k s e cs, hq, hs => by
      cases k with
      | classDeclaration name =>
          cases name <;>
            simp [targetOf, spanWF, isVariableStatement, declName, Node.kind,
              Node.startPos, Node.endPos] at hs ⊢ <;> omega
      | interfaceDeclaration name =>
          cases name <;>
            simp [targetOf, spanWF, isVariableStatement, declName, Node.kind,
              Node.startPos, Node.endPos] at hs ⊢ <;> omega
      | enumDeclaration name =>
          cases name <;>
            simp [targetOf, spanWF, isVariableStatement, declName, Node.kind,
              Node.startPos, Node.endPos] at hs ⊢ <;> omega
      | functionDeclaration name =>
          cases name <;>
            simp [targetOf, spanWF, isVariableStatement, declName, Node.kind,
              Node.startPos, Node.endPos] at hs ⊢ <;> omega
      | typeAliasDeclaration name =>
          cases name <;>
            simp [targetOf, spanWF, isVariableStatement, declName, Node.kind,
              Node.startPos, Node.endPos] at hs ⊢ <;> omega
      | variableStatement dl =>
          have hne := qualifying_variable_nonempty hq
          obtain ⟨first, rest, hfr⟩ :
              ∃ a b, dl.declarations = a :: b := by
            cases hd : dl.declarations with
            | nil => exact absurd hd hne
            | cons a b => exact ⟨a, b, rfl⟩
          cases hn : first.name <;>
            simp [targetOf, spanWF, isVariableStatement, declListOf, Node.kind,
              Node.startPos, Node.endPos, hfr, hn] at hs ⊢ <;> omega
      | sourceFileKind =>
          exfalso
          unfold isTopLevelDeclaration at hq
          simp [isClassDeclaration, isInterfaceDeclaration, isEnumDeclaration,
            isFunctionDeclaration, isTypeAliasDeclaration, Node.kind] at hq
      | otherKind c =>
          exfalso
          unfold isTopLevelDeclaration at hq
          simp [isClassDeclaration, isInterfaceDeclaration, isEnumDeclaration,
            isFunctionDeclaration, isTypeAliasDeclaration, Node.kind] at hq

theorem visitForest_filter (sf : Node) (hlink : parentLinked sf = true)
    (hfresh : rootIdFresh sf = true) :
    ∀ (f : NodeForest), (∀ c ∈ f.toList, c ∈ sf.childList) →
      visitForest sf f =
        (f.toList.filter fun c => isTopLevelDeclaration c sf).map targetOf
  | .nil, _ => rfl
  | .cons hd tl, h => by
      have hhd : hd ∈ sf.childList := h hd (by simp [NodeForest.toList])
      have htl := visitForest_filter sf hlink hfresh tl
        (fun c hc => h c (by simp [NodeForest.toList, hc]))
      rw [visitForest, htl]
      by_cases hq : isTopLevelDeclaration hd sf = true
      · rw [visit_of_qualifying hq]
        simp [NodeForest.toList, List.filter_cons, hq]
      · have hq2 : isTopLevelDeclaration hd sf = false := by
          cases hb : isTopLevelDeclaration hd sf
          · rfl
          · exact absurd hb hq
        have hnil : visit sf hd = [] := by
          obtain ⟨i2, p2, mo2, k2, s2, e2, cs2⟩ := hd
          rw [visit, if_pos (by rw [hq2]; rfl)]
          refine visitForest_eq_nil sf cs2
            (fun m hm => nested_not_top hlink hfresh ?_)
          exact ⟨_, hhd, hm⟩
        rw [hnil]
        simp [NodeForest.toList, List.filter_cons, hq2]

theorem planTargets_characterization (sf : Node) (hlink : parentLinked sf = true)
    (hfresh : rootIdFresh sf = true) :
    planTargets sf =
      (sf.childList.filter fun c => isTopLevelDeclaration c sf).map targetOf :=
  visitForest_filter sf hlink hfresh sf.childForest (fun _ hc => hc)

theorem boolIfId (b : Bool) : (if b = true then true else false) = b := by
  cases b <;> rfl

theorem orRotate (a b c d : Bool) :
    ((a || b || c) && d) = ((b || c || a) && d) := by
  cases a <;> cases b <;> cases c <;> cases d <;> rfl

/-- Claim C10: the two implementations of isTopLevelDeclaration present in
the source (one testing node.parent via a lambda that ignores its argument,
the other testing it directly, with differently ordered
BlockScoped/Const/Let flag checks) are extensionally equal: for every
(node, sourceFile) pair they return the same boolean. -/
theorem classifierImplementationsAgree (node sf : Node) :
    V1.isTopLevelDeclaration node sf = isTopLevelDeclaration node sf := by
  obtain ⟨i, p, mo, k, s, e, cs⟩ := node
  unfold V1.isTopLevelDeclaration isTopLevelDeclaration
  simp only [bne, Node.parentId]
  cases hbe : (p == some sf.nodeId)
  · simp
  · simp only [Bool.not_true, Bool.false_eq_true, if_false]
    cases k <;>
      (simp only [isClassDeclaration, isInterfaceDeclaration, isEnumDeclaration,
         isFunctionDeclaration, isTypeAliasDeclaration, Node.kind, Bool.or_self,
         Bool.or_false, Bool.false_or, Bool.false_eq_true, if_false]
       try rfl)
    case variableStatement dl =>
      rw [boolIfId, orRotate]

/-- Claim C2: isTopLevelDeclaration returns true only if the node's parent
is the source file itself, and any node nested strictly inside a direct
child of the file root (a function body, class body, block, or deeper) is
rejected regardless of its kind.  The parent references must agree with the
tree structure and the root identity must be fresh (parser guarantees). -/
theorem directChildRule (sf : Node) (hlink : parentLinked sf = true)
    (hfresh : rootIdFresh sf = true) (n : Node) :
    (isTopLevelDeclaration n sf = true → n.parentId = some sf.nodeId) ∧
    (nestedBelowTop sf n → isTopLevelDeclaration n sf = false) :=
  ⟨fun h => isTopLevel_parent h, fun hn => nested_not_top hlink hfresh hn⟩

/-- Witness for C2 on the sample file: the class child passes the parent
test, and the property member nested inside the class body is rejected. -/
theorem directChildRule_witness :
    fooClass.parentId = some sampleSF.nodeId ∧
    isTopLevelDeclaration fooProp sampleSF = false :=
  ⟨(directChildRule sampleSF (by decide) (by decide) fooClass).1 (by decide),
   (directChildRule sampleSF (by decide) (by decide) fooProp).2
     ⟨fooClass, by decide, by decide⟩⟩

/-- Claim C3: a direct child of the source file whose kind is class,
interface, enum, function, or type-alias declaration is classified true
unconditionally: for any modifiers, any name payload (present or absent),
and any children. -/
theorem declKindsAlwaysTopLevel (sf : Node) (i : Nat) (mods : List Nat)
    (k : NodeKind) (s e : Nat) (cs : NodeForest)
    (hk : isDeclarationKind k = true) :
    isTopLevelDeclaration (.mk i (some sf.nodeId) mods k s e cs) sf = true := by
  unfold isTopLevelDeclaration
  cases k <;> simp_all [isDeclarationKind, isClassDeclaration,
    isInterfaceDeclaration, isEnumDeclaration, isFunctionDeclaration,
    isTypeAliasDeclaration, Node.kind, Node.parentId, Node.nodeId]

/-- Witness for C3: an anonymous function declaration with an export and a
default modifier and no body is accepted at top level. -/
theorem declKindsAlwaysTopLevel_witness :
    isTopLevelDeclaration
      (.mk 77 (some sampleSF.nodeId) [95, 90] (.functionDeclaration none) 3 9 .nil)
      sampleSF = true :=
  declKindsAlwaysTopLevel sampleSF 77 [95, 90] (.functionDeclaration none) 3 9 .nil
    (by decide)

theorem mask_three_split (f : Nat) :
    f &&& 3 ≠ 0 ↔ (f &&& 1 ≠ 0 ∨ f &&& 2 ≠ 0) := by
  have h3 : f &&& 3 = f % 4 := by
    have h := Nat.and_pow_two_sub_one_eq_mod f 2
    norm_num at h
    exact h
  have h1 : f &&& 1 = f % 2 := Nat.and_one_is_mod f
  have h2 : f &&& 2 = (f.testBit 1).toNat * 2 := by
    have h := Nat.and_two_pow f 1
    norm_num at h
    exact h
  rw [h3, h1, h2, Nat.testBit_to_div_mod]
  norm_num
  by_cases hb : f / 2 % 2 = 1 <;> simp [hb] <;> omega

/-- Claim C4: a top-level VariableStatement is classified true exactly when
its declaration list carries the Let or the Const scoping bit and its
declarator sequence is non-empty; a var-scoped list (no block-scoping bits)
is always rejected. -/
theorem variableStatementScoping (sf : Node) (i : Nat) (mods : List Nat)
    (dl : DeclarationList) (s e : Nat) (cs : NodeForest) :
    (isTopLevelDeclaration (.mk i (some sf.nodeId) mods (.variableStatement dl) s e cs)
        sf = true ↔
      ((dl.flags &&& NodeFlags.Let ≠ 0 ∨ dl.flags &&& NodeFlags.Const ≠ 0) ∧
        dl.declarations ≠ [])) ∧
    (dl.flags &&& NodeFlags.BlockScoped = 0 →
      isTopLevelDeclaration (.mk i (some sf.nodeId) mods (.variableStatement dl) s e cs)
        sf = false) := by
  have hmain : isTopLevelDeclaration
      (.mk i (some sf.nodeId) mods (.variableStatement dl) s e cs) sf = true ↔
      ((dl.flags &&& NodeFlags.Let ≠ 0 ∨ dl.flags &&& NodeFlags.Const ≠ 0) ∧
        dl.declarations ≠ []) := by
    unfold isTopLevelDeclaration
    simp only [isClassDeclaration, isInterfaceDeclaration, isEnumDeclaration,
      isFunctionDeclaration, isTypeAliasDeclaration, Node.kind, Node.parentId,
      bne_self_eq_false, Bool.false_eq_true, if_false, Bool.or_self,
      Bool.or_false, Bool.false_or, Bool.and_eq_true, Bool.or_eq_true,
      bne_iff_ne, ne_eq, decide_eq_true_eq]
    rw [NodeFlags.Let, NodeFlags.Const, NodeFlags.BlockScoped]
    constructor
    · rintro ⟨hblock, hlen⟩
      refine ⟨?_, List.ne_nil_of_length_pos hlen⟩
      rcases hblock with (h2 | h1) | h3
      · exact Or.inr h2
      · exact Or.inl h1
      · rcases (mask_three_split dl.flags).mp h3 with ha | hb
        · exact Or.inl ha
        · exact Or.inr hb
    · rintro ⟨hor, hne⟩
      refine ⟨?_, List.length_pos.mpr hne⟩
      rcases hor with h1 | h2
      · exact Or.inl (Or.inr h1)
      · exact Or.inl (Or.inl h2)
  refine ⟨hmain, fun hvar => ?_⟩
  have hnot : ¬ ((dl.flags &&& NodeFlags.Let ≠ 0 ∨ dl.flags &&& NodeFlags.Const ≠ 0) ∧
      dl.declarations ≠ []) := by
    rintro ⟨hor, -⟩
    have : dl.flags &&& 3 ≠ 0 := by
      apply (mask_three_split dl.flags).mpr
      rw [NodeFlags.Let, NodeFlags.Const] at hor
      exact hor
    rw [NodeFlags.BlockScoped] at hvar
    exact this hvar
  cases hb : isTopLevelDeclaration
      (.mk i (some sf.nodeId) mods (.variableStatement dl) s e cs) sf
  · rfl
  · exact absurd (hmain.mp hb) hnot

/-- Witness for C4: a const statement with one declarator is accepted, and
the same statement with a var-scoped flag word (zero) is rejected. -/
theorem variableStatementScoping_witness :
    isTopLevelDeclaration
      (.mk 5 (some sampleSF.nodeId) []
        (.variableStatement { flags := NodeFlags.Const, declarations := [quxDecl] })
        129 149 .nil) sampleSF = true ∧
    isTopLevelDeclaration
      (.mk 5 (some sampleSF.nodeId) []
        (.variableStatement { flags := 0, declarations := [quxDecl] })
        129 149 .nil) sampleSF = false :=
  ⟨(variableStatementScoping sampleSF 5 []
      { flags := NodeFlags.Const, declarations := [quxDecl] } 129 149 .nil).1.mpr
      ⟨Or.inr (by decide), by decide⟩,
   (variableStatementScoping sampleSF 5 []
      { flags := 0, declarations := [quxDecl] } 129 149 .nil).2 (by decide)⟩

/-- Claim C5: a classified top-level declaration that is not a variable
statement yields a target whose span is exactly the name identifier range
with the identifier text as label, or, when the name is absent, the whole
node range with the label `<anonymous>`. -/
theorem namedDeclTargetSpan (sf n : Node)
    (hq : isTopLevelDeclaration n sf = true)
    (hnv : isVariableStatement n = false) :
    (∀ i, declName n = some i →
        visit sf n = [{ start := i.startPos, endPos := i.endPos,
                        label := i.text, kind := kindNameOf n.kind }]) ∧
    (declName n = none →
        visit sf n = [{ start := n.startPos, endPos := n.endPos,
                        label := "<anonymous>", kind := kindNameOf n.kind }]) := by
  rw [visit_of_qualifying hq]
  constructor
  · intro i hi
    simp [targetOf, hnv, hi]
  · intro hnone
    simp [targetOf, hnv, hnone]

/-- Witness for C5 on the sample file: the class Foo target is exactly the
identifier span with label Foo. -/
theorem namedDeclTargetSpan_witness :
    visit sampleSF fooClass =
      [{ start := 13, endPos := 16, label := "Foo",
         kind := kindNameOf fooClass.kind }] :=
  (namedDeclTargetSpan sampleSF fooClass (by decide) (by decide)).1
    { text := "Foo", startPos := 13, endPos := 16 } (by decide)

/-- Claim C6: a classified top-level variable statement yields exactly one
target derived from the first declarator, whatever the number of
declarators: the identifier span and text for a simple identifier binding,
the whole declarator span with label `<var>` for a pattern binding. -/
theorem variableStatementFirstDeclarator (sf n : Node) (dl : DeclarationList)
    (hk : n.kind = .variableStatement dl)
    (hq : isTopLevelDeclaration n sf = true) :
    ∃ first rest, dl.declarations = first :: rest ∧
      (∀ i, first.name = .ident i →
          visit sf n = [{ start := i.startPos, endPos := i.endPos,
                          label := i.text, kind := "Variable" }]) ∧
      (first.name = .pattern →
          visit sf n = [{ start := first.startPos, endPos := first.endPos,
                          label := "<var>", kind := "Variable" }]) := by
  obtain ⟨i2, p, mo, k, s, e, cs⟩ := n
  have hkk : k = .variableStatement dl := hk
  subst hkk
  have hne := qualifying_variable_nonempty hq
  obtain ⟨first, rest, hfr⟩ : ∃ a b, dl.declarations = a :: b := by
    cases hd : dl.declarations with
    | nil => exact absurd hd hne
    | cons a b => exact ⟨a, b, rfl⟩
  refine ⟨first, rest, hfr, ?_, ?_⟩
  · intro i hi
    rw [visit_of_qualifying hq]
    simp [targetOf, isVariableStatement, declListOf, Node.kind, hfr, hi]
  · intro hp
    rw [visit_of_qualifying hq]
    simp [targetOf, isVariableStatement, declListOf, Node.kind, hfr, hp]

/-- Witness for C6 on the sample file: the const Qux statement yields the
single target cut at the Qux identifier. -/
theorem variableStatementFirstDeclarator_witness :
    visit sampleSF quxStmt =
      [{ start := 142, endPos := 145, label := "Qux", kind := "Variable" }] := by
  obtain ⟨first, rest, heq, hident, hpat⟩ :=
    variableStatementFirstDeclarator sampleSF quxStmt
      { flags := NodeFlags.Const, declarations := [quxDecl] } rfl (by decide)
  injection heq with h1 h2
  subst h1
  exact hident { text := "Qux", startPos := 142, endPos := 145 } rfl

/-- Claim C1: for a well-formed parse tree, the extraction plan has exactly
as many elements as there are qualifying top-level declarations, is ordered
by non-increasing start offset, and its target ranges are pairwise
non-overlapping.  Well-formedness (parser collaborator guarantees): parent
references agree with the tree, the root identity is fresh, the direct
children occupy pairwise disjoint ranges, and every name span lies inside
its node range. -/
theorem plannerOrderingInvariant (sf : Node)
    (hlink : parentLinked sf = true) (hfresh : rootIdFresh sf = true)
    (hdisj : sf.childList.Pairwise nodesDisjoint)
    (hspan : ∀ c ∈ sf.childList, spanWF c = true) :
    (explodePlan sf).length = qualifyingCount sf ∧
    (explodePlan sf).Pairwise (fun a b => b.start ≤ a.start) ∧
    (explodePlan sf).Pairwise targetsDisjoint := by
  have hchar := planTargets_characterization sf hlink hfresh
  have hperm : List.Perm (explodePlan sf) (planTargets sf) := List.mergeSort_perm _ _
  refine ⟨?_, ?_, ?_⟩
  · rw [hperm.length_eq, hchar, List.length_map, qualifyingCount]
  · have htrans : ∀ (a b c : Target),
        descByStart a b → descByStart b c → descByStart a c := by
      intro a b c hab hbc
      simp only [descByStart, decide_eq_true_eq] at *
      omega
    have htotal : ∀ (a b : Target), descByStart a b || descByStart b a := by
      intro a b
      simp only [descByStart, Bool.or_eq_true, decide_eq_true_eq]
      omega
    have hs := List.sorted_mergeSort htrans htotal (planTargets sf)
    exact hs.imp (fun hab => by simpa [descByStart] using hab)
  · have hpre : (planTargets sf).Pairwise targetsDisjoint := by
      rw [hchar, List.pairwise_map]
      have h1 : (sf.childList.filter fun c =>
          isTopLevelDeclaration c sf).Pairwise nodesDisjoint :=
        hdisj.filter _
      refine h1.imp_of_mem ?_
      intro a b ha hb hab
      have hqa : isTopLevelDeclaration a sf = true := (List.mem_filter.mp ha).2
      have hqb : isTopLevelDeclaration b sf = true := (List.mem_filter.mp hb).2
      obtain ⟨ha1, ha2, ha3⟩ := targetOf_span hqa (hspan a (List.mem_filter.mp ha).1)
      obtain ⟨hb1, hb2, hb3⟩ := targetOf_span hqb (hspan b (List.mem_filter.mp hb).1)
      unfold targetsDisjoint
      unfold nodesDisjoint at hab
      omega
    exact (List.Perm.pairwise_iff (fun h => Or.symm h) hperm).mpr hpre

/-- Witness for C1 on the sample file of five declarations and one plain
statement. -/
theorem plannerOrderingInvariant_witness :
    (explodePlan sampleSF).length = qualifyingCount sampleSF ∧
    (explodePlan sampleSF).Pairwise (fun a b => b.start ≤ a.start) ∧
    (explodePlan sampleSF).Pairwise targetsDisjoint :=
  plannerOrderingInvariant sampleSF (by decide) (by decide) (by decide) (by decide)

/-- Claim C7: with no active document, or an active document whose language
identifier is outside the accepted set, explodeDocument computes no plan,
attempts no target, surfaces exactly one error notification and no
information notification, and returns without throwing. -/
theorem refusalConditions (env : Env)
    (h : env.activeTextEditor = none ∨
      ∃ d, env.activeTextEditor = some d ∧ d.languageId ∉ acceptedLanguages) :
    ∃ r, explodeDocument env = .ok r ∧ r.plan = none ∧ r.attempted = [] ∧
      r.errors.length = 1 ∧ r.infos = [] := by
  rcases h with hnone | ⟨d, hd, hlang⟩
  · have heq : explodeDocument env = .ok
        { errors := ["Explode Document: No active editor"], infos := [],
          plan := none, attempted := [],
          logs := ["Explode Document: No active editor"] } := by
      rw [explodeDocument, hnone]
    exact ⟨_, heq, rfl, rfl, rfl, rfl⟩
  · have hts : isTSLike d = false := by
      simp only [acceptedLanguages, List.mem_cons, List.not_mem_nil, or_false,
        not_or] at hlang
      obtain ⟨h1, h2, h3, h4⟩ := hlang
      simp [isTSLike, h1, h2, h3, h4]
    have heq : explodeDocument env = .ok
        { errors := ["Explode Document: TS or JS files only"], infos := [],
          plan := none, attempted := [],
          logs := ["Explode Document: TS or JS files only"] } := by
      simp [explodeDocument, hd, hts]
    exact ⟨_, heq, rfl, rfl, rfl, rfl⟩

/-- Witness for C7: a markdown document is refused. -/
theorem refusalConditions_witness :
    ∃ r, explodeDocument markdownEnv = .ok r ∧ r.plan = none ∧
      r.attempted = [] ∧ r.errors.length = 1 ∧ r.infos = [] :=
  refusalConditions markdownEnv (Or.inr ⟨markdownDoc, rfl, by decide⟩)

/-- Claim C8: when the walk finds zero qualifying nodes, explodeDocument
reports the empty plan through a single informational notification, raises
no error, attempts nothing further, and returns normally. -/
theorem emptyPlanInformational (env : Env) (d : TextDocument)
    (h1 : env.activeTextEditor = some d) (h2 : isTSLike d = true)
    (h3 : planTargets (env.parse d.fileName d.text) = []) :
    explodeDocument env = .ok
      { errors := [],
        infos := ["Explode Document: No top-level declarations found"],
        plan := some [], attempted := [],
        logs := ["Explode Document: No top-level declarations found"] } := by
  simp [explodeDocument, h1, h2, h3]

/-- Witness for C8: a TypeScript document parsing to a file with no
qualifying declarations. -/
theorem emptyPlanInformational_witness :
    explodeDocument emptyTsEnv = .ok
      { errors := [],
        infos := ["Explode Document: No top-level declarations found"],
        plan := some [], attempted := [],
        logs := ["Explode Document: No top-level declarations found"] } :=
  emptyPlanInformational emptyTsEnv emptyTsDoc rfl (by decide) rfl

/-- Claim C9: whatever the per-target collaborator does, the loop attempts
every target of the plan in order; a provider query rejection or a code
action execution rejection for a target is caught there and logged with the
target label and the underlying message; and explodeDocument always returns
normally, never re-raising a collaborator failure. -/
theorem perTargetFailureContainment (env : Env) (plan : List Target) :
    (runLoop env plan).1 = plan.map Target.label ∧
    (∀ t ∈ plan, ∀ msg,
        (env.query t = .error msg ∨
          ∃ a rest, env.query t = .ok (a :: rest) ∧
            env.execCodeAction a = .error msg) →
        ("Provider execute failed for " ++ t.label ++ ": " ++ msg) ∈
          (runLoop env plan).2) ∧
    (∃ r, explodeDocument env = .ok r) := by
  refine ⟨?_, ?_, ?_⟩
  · induction plan with
    | nil => rfl
    | cons t rest ih => simp [runLoop, ih]
  · induction plan with
    | nil =>
        intro t ht
        exact (List.not_mem_nil t ht).elim
    | cons t rest ih =>
        intro u hu msg hfail
        rcases List.mem_cons.mp hu with rfl | hu2
        · show _ ∈ (runLoop env (u :: rest)).2
          rw [runLoop]
          refine List.mem_cons_of_mem _ (List.mem_append_left _ ?_)
          rcases hfail with herr | ⟨a, as2, hok, hexec⟩
          · simp [processTarget, herr]
          · simp [processTarget, hok, hexec]
        · show _ ∈ (runLoop env (t :: rest)).2
          rw [runLoop]
          exact List.mem_cons_of_mem _
            (List.mem_append_right _ (ih u hu2 msg hfail))
  · unfold explodeDocument
    cases env.activeTextEditor with
    | none => exact ⟨_, rfl⟩
    | some d =>
        dsimp only
        split
        · exact ⟨_, rfl⟩
        · split
          · exact ⟨_, rfl⟩
          · exact ⟨_, rfl⟩

/-- Witness for C9: a one-target plan against an environment whose provider
query always rejects; the target is still attempted and the failure line is
logged. -/
theorem perTargetFailureContainment_witness :
    (runLoop failingEnv [fooTarget]).1 = [fooTarget].map Target.label ∧
    ("Provider execute failed for " ++ fooTarget.label ++ ": " ++ "boom") ∈
      (runLoop failingEnv [fooTarget]).2 :=
  ⟨(perTargetFailureContainment failingEnv [fooTarget]).1,
   (perTargetFailureContainment failingEnv [fooTarget]).2.1 fooTarget
     (List.mem_singleton.mpr rfl) "boom" (Or.inl rfl)⟩
